import Mathlib

/-!
# Verification of the github_stats collection and aggregation pipeline

Shallow embedding of the repository's four Python source files:

* `stats.py` — the REST-based collector with its `SkippedReposManager`
  (persisted skip registry) and per-repository error classification.
* `src/config_loader.py` — configuration accessors (only `get_skip_labels`
  is needed by the claims).
* `src/fetcher.py` — the GraphQL paged collector (`GitHubStatsFetcher.fetch_stats`)
  with rate-limit detection and event normalization.
* `src/reporter.py` — the aggregation engine (`StatsReporter.generate_report`).

Machine-level details that the claims do not depend on (string formatting of
dates inside search queries, terminal printing, the tabulate rendering) are
elided; everything the claims touch is modelled from the Python source.
-/

namespace GithubStats

/-- The `type` field of a collected event row.  `pr_created`, `comment` are
shared by both collectors; `pr_approved` is emitted only by `stats.py`;
`review_approved`, `review_changes_requested`, `review_commented`, `pr_merged`
are emitted only by `src/fetcher.py`. -/
inductive EventType
  | pr_created
  | pr_approved
  | review_approved
  | review_changes_requested
  | review_commented
  | pr_merged
  | comment
deriving DecidableEq, BEq, Repr

/-- One flat event row appended to the `data` list by either collector.
Timestamps are modelled as integer instants (seconds); `mergeTimeHours` is the
rational `(merged_at - created_at).total_seconds() / 3600` and is `0` for rows
whose Python dict has no `merge_time_hours` key (the reporter only reads it on
`pr_merged` rows).  `additions`/`deletions` default to `0` for rows whose dict
lacks those keys (the reporter only reads them on `pr_created` rows). -/
structure Event where
  type : EventType
  user : String
  repo : String
  createdAt : Int
  count : Nat
  additions : Nat := 0
  deletions : Nat := 0
  mergeTimeHours : Rat := 0
deriving DecidableEq, Repr

/-- Python's `str.lower` (`String.toLower`), written over the underlying
character list so that concrete instances reduce inside the kernel. -/
def strLower (s : String) : String := ⟨s.data.map Char.toLower⟩

/-- `ConfigLoader.get_skip_labels` (both `stats.py` and `src/config_loader.py`):
lower-cases every configured label, defaulting to `["release"]` when the
`skip_labels` key is absent. -/
def getSkipLabels (cfg : Option (List String)) : List String :=
  (cfg.getD ["release"]).map strLower

/-!
Rational arithmetic used by the pipeline.  Python computes these quantities
with exact integer or float arithmetic; they are modelled as exact rationals.
The operations are written through `Rat.divInt` on cross-multiplied
numerators/denominators — proved below to agree with the field operations of
`ℚ` — so that concrete pipeline runs reduce inside the kernel.
-/

/-- Rational subtraction, `a - b`. -/
def ratSub (a b : Rat) : Rat :=
  Rat.divInt (a.num * b.den - b.num * a.den) (a.den * b.den)

/-- Rational addition, `a + b`. -/
def ratAdd (a b : Rat) : Rat :=
  Rat.divInt (a.num * b.den + b.num * a.den) (a.den * b.den)

/-- Rational multiplication, `a * b`. -/
def ratMul (a b : Rat) : Rat :=
  Rat.divInt (a.num * b.num) (a.den * b.den)

/-- Rational division, `a / b` (zero when `b = 0`, as in `ℚ`). -/
def ratDiv (a b : Rat) : Rat :=
  Rat.divInt (a.num * b.den) (a.den * b.num)

/-- Sum of a list of rationals. -/
def ratSum (l : List Rat) : Rat := l.foldr ratAdd 0

/-- Lexicographic code-point order on character lists. -/
def charListLt : List Char → List Char → Bool
  | [], [] => false
  | [], _ :: _ => true
  | _ :: _, [] => false
  | a :: as, b :: bs =>
    if a < b then true else if b < a then false else charListLt as bs

/-- Python's string `<`: lexicographic comparison by code point. -/
def strLt (a b : String) : Bool := charListLt a.data b.data

namespace Stats

/-! ## `stats.py`: SkippedReposManager -/

/-- What the persisted `skipped_repos.yaml` file can look like to `_load`:
missing on disk, unreadable/unparsable (open or `yaml.safe_load` raises),
or parsed — where `parsed none` is an empty file (`safe_load` returns `None`)
and `parsed (some doc)` is a mapping whose `skipped_repos` key is optional. -/
inductive SkipFile
  | missing
  | unparsable
  | parsed (doc : Option (Option (List String)))
deriving DecidableEq

/-- The body of `SkippedReposManager._load` after the existence check: reading
and parsing the file either produces a list or raises. -/
def loadInner : SkipFile → Except Unit (List String)
  | .missing => .ok []
  | .unparsable => .error ()
  | .parsed none => .ok []
  | .parsed (some doc) => .ok (doc.getD [])

/-- `SkippedReposManager._load`: a missing file short-circuits to `[]`; any
exception from reading/parsing is caught and replaced by `[]`. -/
def loadSkipped (f : SkipFile) : List String :=
  match loadInner f with
  | .ok l => l
  | .error _ => []

/-- The state of a `SkippedReposManager`: the in-memory `skipped_repos` list
and the list last flushed to `skipped_repos.yaml` by `save`. -/
structure SkipState where
  skipped : List String
  persisted : List String
deriving DecidableEq

/-- `SkippedReposManager.__init__`: the in-memory list is `_load()`'s result;
the file keeps holding the same effective list. -/
def initManager (f : SkipFile) : SkipState :=
  { skipped := loadSkipped f, persisted := loadSkipped f }

/-- `SkippedReposManager.is_skipped`. -/
def SkipState.isSkipped (st : SkipState) (r : String) : Bool :=
  st.skipped.contains r

/-- `SkippedReposManager.add`: append only when absent, then `save()`
(which rewrites the file with the whole current list). -/
def SkipState.add (st : SkipState) (r : String) : SkipState :=
  if st.skipped.contains r then st
  else { skipped := st.skipped ++ [r], persisted := st.skipped ++ [r] }

/-! ## `stats.py`: GitHubStatsFetcher.fetch_stats (REST) -/

/-- One review returned by `pr.get_reviews()`. -/
structure RestReview where
  user : String
  state : String
  submittedAt : Int
deriving DecidableEq

/-- One comment returned by `issue.get_comments()` / `pr.get_review_comments()`. -/
structure RestComment where
  user : String
  createdAt : Int
deriving DecidableEq

/-- One search result item together with the pull-request data the loop body
reads from it (`issue.as_pull_request()` is folded into the same record). -/
structure Issue where
  number : Nat
  isPull : Bool
  user : String
  createdAt : Int
  labels : List String
  additions : Nat
  deletions : Nat
  reviews : List RestReview
  issueComments : List RestComment
  reviewComments : List RestComment
deriving DecidableEq

/-- What one repository's interaction with the GitHub client can produce:
a successful issue search, a `GithubException` with an HTTP status, or any
other exception. -/
inductive RestResult
  | ok (issues : List Issue)
  | ghErr (status : Nat)
  | exn
deriving DecidableEq

/-- The events appended for one search item in `stats.py`'s loop body
(lines 138–202): non-PR issues are skipped; one `pr_created` row with
label-based zeroing of line counts, one `pr_approved` row per APPROVED
review (at the review date), and one `comment` row per issue comment and
per review comment. -/
def issueEvents (repo : String) (skipLabels : List String) (i : Issue) : List Event :=
  if !i.isPull then []
  else
    let labels := i.labels.map strLower
    let shouldSkipLines := skipLabels.any (fun s => labels.contains s)
    let adds := if shouldSkipLines then 0 else i.additions
    let dels := if shouldSkipLines then 0 else i.deletions
    { type := .pr_created, user := i.user, repo := repo, createdAt := i.createdAt,
      count := 1, additions := adds, deletions := dels } ::
    (i.reviews.filterMap (fun rv =>
        if rv.state == "APPROVED" then
          some { type := .pr_approved, user := rv.user, repo := repo,
                 createdAt := rv.submittedAt, count := 1 }
        else none)
      ++ i.issueComments.map (fun c =>
          { type := .comment, user := c.user, repo := repo,
            createdAt := c.createdAt, count := 1 })
      ++ i.reviewComments.map (fun c =>
          { type := .comment, user := c.user, repo := repo,
            createdAt := c.createdAt, count := 1 }))

/-- One iteration of the repository loop in `stats.py.fetch_stats`
(lines 112–218).  Returns the events emitted, the repositories for which the
remote source was contacted, and the updated registry state:
a registered repository is skipped without contact; a successful fetch emits
the normalized events; a `GithubException` with status 403 or 404 adds the
repository to the registry (which flushes it); any other error is logged and
the loop moves on. -/
def stepRepo (remote : String → RestResult) (skipLabels : List String)
    (st : SkipState) (r : String) : List Event × List String × SkipState :=
  if st.isSkipped r then ([], [], st)
  else
    match remote r with
    | .ok issues => ((issues.map (issueEvents r skipLabels)).flatten, [r], st)
    | .ghErr s => if s == 403 || s == 404 then ([], [r], st.add r) else ([], [r], st)
    | .exn => ([], [r], st)

/-- `stats.py.fetch_stats`: fold `stepRepo` over the repository list,
accumulating the shared `data` list, the contact trace, and the registry. -/
def fetchStatsRest (remote : String → RestResult) (skipLabels : List String) :
    List String → SkipState → List Event × List String × SkipState
  | [], st => ([], [], st)
  | r :: rest, st =>
    let step := stepRepo remote skipLabels st r
    let restOut := fetchStatsRest remote skipLabels rest step.2.2
    (step.1 ++ restOut.1, step.2.1 ++ restOut.2.1, restOut.2.2)

/-! ## Date-window qualifier (`stats.py` lines 121–129) -/

/-- The `created:` qualifier that `stats.py` appends to the search query:
`created:a..b` when both bounds are present, `created:>=a` / `created:<=b`
when only one is, and nothing when neither is. -/
inductive CreatedQual
  | between (a b : Int)
  | ge (a : Int)
  | le (b : Int)
  | unconstrained
deriving DecidableEq

/-- The if/elif/elif chain of `stats.py` lines 124–129. -/
def buildCreatedQual (s e : Option Int) : CreatedQual :=
  match s, e with
  | some a, some b => .between a b
  | some a, none => .ge a
  | none, some b => .le b
  | none, none => .unconstrained

/-- Modelled from the spec: the paged query source (GitHub search, external to
this repository) evaluates a `created:` qualifier against an item's creation
instant — `a..b` is inclusive on both bounds, `>=a` / `<=b` constrain one side,
and an item with no qualifier is unconstrained. -/
def qualSatisfied : CreatedQual → Int → Bool
  | .between a b, d => decide (a ≤ d) && decide (d ≤ b)
  | .ge a, d => decide (a ≤ d)
  | .le b, d => decide (d ≤ b)
  | .unconstrained, _ => true

end Stats

namespace Src

/-! ## `src/fetcher.py`: GitHubStatsFetcher.fetch_stats (GraphQL) -/

/-- One node of the GraphQL `reviews` connection. -/
structure GqlReview where
  author : Option String
  state : String
deriving DecidableEq

/-- One node of the `comments` connection (top-level or inside a thread). -/
structure GqlComment where
  author : Option String
  createdAt : Int
deriving DecidableEq

/-- One node of the `reviewThreads` connection. -/
structure GqlThread where
  comments : List GqlComment
deriving DecidableEq

/-- One `PullRequest` node of a GraphQL search page. -/
structure PrNode where
  number : Nat
  author : Option String
  createdAt : Int
  mergedAt : Option Int
  additions : Nat
  deletions : Nat
  labels : List String
  reviews : List GqlReview
  comments : List GqlComment
  reviewThreads : List GqlThread
deriving DecidableEq

/-- The events appended for one search node in `src/fetcher.py`'s loop body
(lines 151–256): a `None` node is skipped; otherwise one `pr_created` row with
label-based zeroing of line counts, one review row per review with a non-null
author and a recognized state (all stamped with the PR's creation time), one
`pr_merged` row when a merge timestamp exists (with the merge latency in
hours), and one `comment` row per top-level comment and per review-thread
comment with a non-null author. -/
def normalizeNode (repo : String) (skipLabels : List String) : Option PrNode → List Event
  | none => []
  | some n =>
    let author := n.author.getD "unknown"
    let labels := n.labels.map strLower
    let shouldSkipLines := skipLabels.any (fun s => labels.contains s)
    let adds := if shouldSkipLines then 0 else n.additions
    let dels := if shouldSkipLines then 0 else n.deletions
    { type := .pr_created, user := author, repo := repo, createdAt := n.createdAt,
      count := 1, additions := adds, deletions := dels } ::
    (n.reviews.filterMap (fun rv =>
        match rv.author with
        | none => none
        | some a =>
          if rv.state == "APPROVED" then
            some { type := .review_approved, user := a, repo := repo,
                   createdAt := n.createdAt, count := 1 }
          else if rv.state == "CHANGES_REQUESTED" then
            some { type := .review_changes_requested, user := a, repo := repo,
                   createdAt := n.createdAt, count := 1 }
          else if rv.state == "COMMENTED" then
            some { type := .review_commented, user := a, repo := repo,
                   createdAt := n.createdAt, count := 1 }
          else none)
      ++ (match n.mergedAt with
          | none => []
          | some m =>
            [{ type := .pr_merged, user := author, repo := repo, createdAt := m,
               count := 1, mergeTimeHours := Rat.divInt (m - n.createdAt) 3600 }])
      ++ n.comments.filterMap (fun c =>
          c.author.map (fun a =>
            { type := .comment, user := a, repo := repo,
              createdAt := c.createdAt, count := 1 }))
      ++ (n.reviewThreads.map (fun t =>
            t.comments.filterMap (fun c =>
              c.author.map (fun a =>
                { type := .comment, user := a, repo := repo,
                  createdAt := c.createdAt, count := 1 })))).flatten)

/-- One page delivered by `run_graphql_query` for a repository's search:
either a payload with an `errors` key (its first message), or an HTTP-level
failure (`run_graphql_query` raises a plain `Exception` on non-200), or a
successful page of nodes plus the `hasNextPage` flag. -/
inductive Page
  | errors (firstMsg : String)
  | httpError
  | ok (nodes : List (Option PrNode)) (hasNext : Bool)
deriving DecidableEq

/-- The error signature `src/fetcher.py` looks for in a GraphQL error payload. -/
def rateLimitSig : String := "API rate limit exceeded"

/-- Python's substring test `pat in s`, over the character lists so that
concrete instances reduce inside the kernel: `pat` occurs in `s` iff it is a
prefix of some suffix of `s`. -/
def containsSubstr (s pat : String) : Bool :=
  substrAux pat.data s.data
where
  substrAux (p : List Char) : List Char → Bool
    | [] => p.isPrefixOf []
    | c :: cs => p.isPrefixOf (c :: cs) || substrAux p cs

/-- The `while has_next_page` loop of `src/fetcher.py` (lines 129–259) for one
repository, driven by the successive pages the source returns.  A page with an
`errors` key raises `RateLimitExceededError` when the first message carries the
rate-limit signature and otherwise breaks out of the loop keeping the events
already collected; an HTTP-level failure is caught by the surrounding
`except Exception` handler, also keeping collected events; an exhausted page
list stands for the source reporting no further page. -/
def pagesEvents (repo : String) (skipLabels : List String) :
    List Page → Except Unit (List Event)
  | [] => .ok []
  | .errors msg :: _ => if containsSubstr msg rateLimitSig then .error () else .ok []
  | .httpError :: _ => .ok []
  | .ok nodes hasNext :: rest =>
    let evs := (nodes.map (normalizeNode repo skipLabels)).flatten
    if hasNext then
      match pagesEvents repo skipLabels rest with
      | .error e => .error e
      | .ok more => .ok (evs ++ more)
    else .ok evs

/-- How a call to `src/fetcher.py.fetch_stats` can fail: the
`RateLimitExceededError` it raises itself, or the `AttributeError` raised by
`start_date.strftime(...)` / `end_date.strftime(...)` when a bound is `None`
(lines 120–121, outside the `try` block). -/
inductive FetchErr
  | rateLimit
  | attrError
deriving DecidableEq

/-- Lines 120–122 of `src/fetcher.py`: both `strftime` calls are unconditional,
so an absent bound raises `AttributeError`; with both present the search query
carries the inclusive `created:start..end` qualifier (the surrounding
`repo:`/`is:pr` text and the date formatting are elided). -/
def buildSearchQueryG (s e : Option Int) : Except Unit Stats.CreatedQual :=
  match s with
  | none => .error ()
  | some a =>
    match e with
    | none => .error ()
    | some b => .ok (.between a b)

/-- `src/fetcher.py.fetch_stats`: for each repository in order, build the
search query (which can raise outside the `try`), then run the page loop;
a `RateLimitExceededError` is re-raised, aborting the whole run and
discarding every event collected so far. -/
def fetchStatsG (remote : String → List Page) (startDate endDate : Option Int)
    (skipLabels : List String) : List String → Except FetchErr (List Event)
  | [] => .ok []
  | r :: rest =>
    match buildSearchQueryG startDate endDate with
    | .error _ => .error .attrError
    | .ok _q =>
      match pagesEvents r skipLabels (remote r) with
      | .error _ => .error .rateLimit
      | .ok evs =>
        match fetchStatsG remote startDate endDate skipLabels rest with
        | .error er => .error er
        | .ok more => .ok (evs ++ more)

/-- A collection run of `src/fetcher.py` seen together with a skip registry:
`fetch_stats` there takes no registry (its constructor receives only the
token) and its body never references one, so the registry is returned
unchanged alongside the fetch result. -/
def collectG (registry : List String) (remote : String → List Page)
    (startDate endDate : Option Int) (skipLabels : List String)
    (repos : List String) : Except FetchErr (List Event) × List String :=
  (fetchStatsG remote startDate endDate skipLabels repos, registry)

/-! ## `src/reporter.py`: StatsReporter.generate_report -/

/-- Round half to even, as numpy's `round` (used by pandas `Series.round(0)`)
does on exact halves. -/
def roundHalfEven (q : Rat) : Int :=
  let n : Int := Int.fdiv q.num q.den
  let frac : Rat := ratSub q (n : Rat)
  if frac < mkRat 1 2 then n
  else if mkRat 1 2 < frac then n + 1
  else if n % 2 = 0 then n else n + 1

/-- pandas `Series.round(1)`. -/
def roundTo1 (q : Rat) : Rat := Rat.divInt (roundHalfEven (ratMul q 10)) 10

/-- The columns of a per-repository summary table after renaming
(`column_mapping` of `src/reporter.py`). -/
inductive Col
  | prCreated
  | reviewsApproved
  | reviewsChangesRequested
  | reviewsCommented
  | comments
  | avgPrSize
  | avgMergeTime
deriving DecidableEq, BEq

/-- The `metric_map` dictionary of `src/reporter.py` (lines 111–119 and
147–155): configuration metric keys to summary columns; unknown keys have
no entry. -/
def metricMapCol : String → Option Col
  | "pr_created" => some .prCreated
  | "reviews_approved" => some .reviewsApproved
  | "reviews_changes_requested" => some .reviewsChangesRequested
  | "reviews_commented" => some .reviewsCommented
  | "comments" => some .comments
  | "avg_pr_size" => some .avgPrSize
  | "avg_merge_time" => some .avgMergeTime
  | _ => none

/-- The `all_cols` list of `src/reporter.py` (lines 91–99), in order. -/
def allCols : List Col :=
  [.prCreated, .reviewsApproved, .reviewsChangesRequested, .reviewsCommented,
   .comments, .avgPrSize, .avgMergeTime]

/-- Lines 108–127: with a non-empty `metrics` config keep the recognized keys
in order (falling back to all columns, with a warning, when none is
recognized); with no `metrics` config keep all columns. -/
def selectCols (metrics : List String) : List Col :=
  if metrics.isEmpty then allCols
  else
    let sel := metrics.filterMap metricMapCol
    if sel.isEmpty then allCols else sel

/-- One row of the final summary table for a `(repository, user)` pair. -/
structure Row where
  user : String
  prCreated : Nat
  reviewsApproved : Nat
  reviewsChangesRequested : Nat
  reviewsCommented : Nat
  comments : Nat
  avgPrSize : Int
  avgMergeTime : Rat
deriving DecidableEq

/-- The numeric value a row shows in a given column. -/
def colValue (row : Row) : Col → Rat
  | .prCreated => (row.prCreated : Rat)
  | .reviewsApproved => (row.reviewsApproved : Rat)
  | .reviewsChangesRequested => (row.reviewsChangesRequested : Rat)
  | .reviewsCommented => (row.reviewsCommented : Rat)
  | .comments => (row.comments : Rat)
  | .avgPrSize => (row.avgPrSize : Rat)
  | .avgMergeTime => row.avgMergeTime

/-- `summary.sum(axis=1)` over the kept columns (line 134). -/
def colsSum (cols : List Col) (row : Row) : Rat :=
  ratSum (cols.map (colValue row))

/-- One cell of `repo_df.groupby(['user', 'type'])['count'].sum().unstack(fill_value=0)`
(line 49), merged with the later "ensure all expected columns exist" step:
the summed `count` of the rows carrying the `(user, type)` key, `0` when none. -/
def countCell (repoDf : List Event) (u : String) (t : EventType) : Nat :=
  ((repoDf.filter (fun ev => ev.user == u && ev.type == t)).map Event.count).sum

/-- Lines 52–66: the `Avg PR Size (loc)` cell for one user, after
`.round(0).astype(int)` (line 105).  When the repository has `pr_created`
rows, users appearing in that group get `(Σadditions + Σdeletions) / Σcount`
and everyone else gets `0` via the left join's `fillna(0)`; when it has none
the whole column is `0`. -/
def avgPrSizeFor (repoDf : List Event) (u : String) : Int :=
  let prdf := repoDf.filter (fun ev => ev.type == .pr_created)
  if prdf.isEmpty then 0
  else if (prdf.map Event.user).contains u then
    let udf := prdf.filter (fun ev => ev.user == u)
    let totalLines : Nat :=
      (udf.map Event.additions).sum + (udf.map Event.deletions).sum
    let prCount : Nat := (udf.map Event.count).sum
    roundHalfEven (ratDiv (totalLines : Rat) (prCount : Rat))
  else 0

/-- Lines 68–76: the `Avg Merge Time (h)` cell for one user, after
`.round(1)` (line 106): the mean of `merge_time_hours` over the user's
`pr_merged` rows, `0` when the user (or the repository) has none. -/
def avgMergeTimeFor (repoDf : List Event) (u : String) : Rat :=
  let mdf := repoDf.filter (fun ev => ev.type == .pr_merged)
  if mdf.isEmpty then 0
  else if (mdf.map Event.user).contains u then
    let udf := mdf.filter (fun ev => ev.user == u)
    roundTo1 (ratDiv (ratSum (udf.map Event.mergeTimeHours)) (udf.length : Rat))
  else 0

/-- The summary row the pipeline produces for one user of a repository
partition. -/
def buildRow (repoDf : List Event) (u : String) : Row :=
  { user := u
    prCreated := countCell repoDf u .pr_created
    reviewsApproved := countCell repoDf u .review_approved
    reviewsChangesRequested := countCell repoDf u .review_changes_requested
    reviewsCommented := countCell repoDf u .review_commented
    comments := countCell repoDf u .comment
    avgPrSize := avgPrSizeFor repoDf u
    avgMergeTime := avgMergeTimeFor repoDf u }

/-- Insert into a sorted-ascending duplicate-free list of strings. -/
def insertNodupAsc (x : String) : List String → List String
  | [] => [x]
  | y :: ys =>
    if x == y then y :: ys
    else if strLt x y then x :: y :: ys
    else y :: insertNodupAsc x ys

/-- The index of `groupby(['user', 'type']) ... .unstack()`: the distinct users
of the partition, sorted ascending (pandas `groupby` sorts its keys). -/
def groupKeys (users : List String) : List String :=
  users.foldr insertNodupAsc []

/-- Insertion step for a descending sort: `x` goes before the first row whose
key does not exceed `x`'s. -/
def insertDesc (key : Row → Rat) (x : Row) : List Row → List Row
  | [] => [x]
  | y :: ys => if key y ≤ key x then x :: y :: ys else y :: insertDesc key x ys

/-- `summary.sort_values(col, ascending=False)` (lines 159/163).  The call
uses pandas' default `kind='quicksort'`, which is documented as NOT stable:
the relative order of rows tied on the sort column is unspecified.  An
executable model must still pick some deterministic algorithm — an insertion
sort here — so only its tie-order-independent properties (the output is
sorted descending on the key and is a permutation of the input, proved
below) are faithful to the program; the particular order this model gives
tied rows is a modelling artifact and must not be relied on. -/
def sortRowsDesc (key : Row → Rat) (rows : List Row) : List Row :=
  rows.foldr (insertDesc key) []

/-- Lines 144–163: the column actually sorted on — `metric_map.get(sort_by,
'PRs Created')` when that column survived the selection, otherwise the first
remaining column. -/
def sortColUsed (metrics : List String) (sortBy : Option String) : Col :=
  let sc := (sortBy.bind metricMapCol).getD .prCreated
  let fc := selectCols metrics
  if fc.contains sc then sc else fc.headD .prCreated

/-- Lines 26–32: `users_filter` inclusion then `skip_users` exclusion; an
absent or empty list (both falsy in Python) applies no filter. -/
def applyUserFilters (usersFilter skipUsers : List String) (df : List Event) :
    List Event :=
  let d1 := if usersFilter.isEmpty then df
            else df.filter (fun ev => usersFilter.contains ev.user)
  if skipUsers.isEmpty then d1
  else d1.filter (fun ev => !(skipUsers.contains ev.user))

/-- The table built for one repository (lines 42–166): group the partition by
user, compute the metric and derived cells, keep the selected columns, drop
all-zero rows, and sort descending on the configured column. -/
def buildRepoRows (df : List Event) (metrics : List String)
    (sortBy : Option String) (r : String) : List Row :=
  let repoDf := df.filter (fun ev => ev.repo == r)
  let rows := (groupKeys (repoDf.map Event.user)).map (buildRow repoDf)
  let fc := selectCols metrics
  let rows := rows.filter (fun row => decide (0 < colsSum fc row))
  sortRowsDesc (fun row => colValue row (sortColUsed metrics sortBy)) rows

/-- `self.df['repo'].unique()` (line 40): distinct values in order of first
appearance. -/
def firstAppearance (l : List String) : List String :=
  go [] l
where
  go (seen : List String) : List String → List String
    | [] => []
    | x :: xs => if seen.contains x then go seen xs else x :: go (x :: seen) xs

/-- `StatsReporter.generate_report` up to the rendering sink: the mapping
from repository (in order of first appearance in the filtered stream) to its
ordered summary rows; repositories whose table ends up empty are omitted. -/
def summarize (df : List Event) (usersFilter skipUsers : List String)
    (metrics : List String) (sortBy : Option String) :
    List (String × List Row) :=
  let df := applyUserFilters usersFilter skipUsers df
  if df.isEmpty then []
  else
    (firstAppearance (df.map Event.repo)).filterMap (fun r =>
      let rows := buildRepoRows df metrics sortBy r
      if rows.isEmpty then none else some (r, rows))

end Src

/-! ## Claims about the skip registry (C9, C10) -/

/-- **C9.** Appending a repository name that is already present in the
SkipRegistry is a no-op: for every registry state and repository name, calling
`add` twice has the same effect on the in-memory list and on the persisted
state as calling it once, and `add` preserves freedom from duplicates. -/
theorem skippedReposManager_add_idempotent_nodup :
    (∀ (st : Stats.SkipState) (r : String), (st.add r).add r = st.add r) ∧
    (∀ (st : Stats.SkipState) (r : String),
      st.skipped.Nodup → st.persisted.Nodup →
        ((st.add r).skipped.Nodup ∧ (st.add r).persisted.Nodup)) := by
  constructor
  · intro st r
    by_cases h : r ∈ st.skipped
    · simp [Stats.SkipState.add, h]
    · simp [Stats.SkipState.add, h]
  · intro st r hnd hpd
    by_cases h : r ∈ st.skipped
    · simp [Stats.SkipState.add, h, hnd, hpd]
    · simp [Stats.SkipState.add, h, List.nodup_append, hnd]

/-- Witness for C9: a concrete registry where the second `add` of the same
name changes nothing and no duplicate appears. -/
theorem skippedReposManager_add_idempotent_nodup_witness :
    ((Stats.SkipState.mk ["o/a"] ["o/a"]).add "o/b").add "o/b"
        = (Stats.SkipState.mk ["o/a"] ["o/a"]).add "o/b" ∧
      (((Stats.SkipState.mk ["o/a"] ["o/a"]).add "o/b").skipped.Nodup ∧
        ((Stats.SkipState.mk ["o/a"] ["o/a"]).add "o/b").persisted.Nodup) :=
  ⟨skippedReposManager_add_idempotent_nodup.1 (Stats.SkipState.mk ["o/a"] ["o/a"]) "o/b",
   skippedReposManager_add_idempotent_nodup.2 (Stats.SkipState.mk ["o/a"] ["o/a"]) "o/b"
     (by decide) (by decide)⟩

/-- **C10.** Loading the persisted skip-list at startup from a missing file,
an empty file (`safe_load` returns `None`), or an unreadable/unparsable file
yields an empty registry without raising, so no repository is pre-skipped. -/
theorem load_skipped_failures_yield_empty_registry :
    Stats.loadSkipped .missing = [] ∧
    Stats.loadSkipped (.parsed none) = [] ∧
    Stats.loadSkipped .unparsable = [] ∧
    (∀ r : String,
      (Stats.initManager .missing).isSkipped r = false ∧
      (Stats.initManager (.parsed none)).isSkipped r = false ∧
      (Stats.initManager .unparsable).isSkipped r = false) :=
  ⟨rfl, rfl, rfl, fun _ => ⟨rfl, rfl, rfl⟩⟩

/-! ## Claim about the date window (C8) -/

/-- **C8** (code bug in `src/fetcher.py`).  The `created:` qualifier built by
`stats.py` selects exactly the items created within `[start, end]`, inclusive
on both bounds, with an absent bound leaving that side unconstrained.  The
GraphQL collector in `src/fetcher.py`, however, calls `strftime` on both
bounds unconditionally outside its `try` block, so any call with an absent
bound raises `AttributeError` before the remote source is contacted, instead
of succeeding with an unconstrained side. -/
theorem created_window_inclusive_and_absent_bound_crash :
    (∀ (s e : Option Int) (d : Int),
      Stats.qualSatisfied (Stats.buildCreatedQual s e) d = true ↔
        ((∀ a, s = some a → a ≤ d) ∧ (∀ b, e = some b → d ≤ b))) ∧
    Src.buildSearchQueryG none (some 20) = .error () ∧
    (∀ (e : Option Int) (sl : List String) (remote : String → List Src.Page)
        (r : String) (rest : List String),
      Src.fetchStatsG remote none e sl (r :: rest) = .error .attrError) ∧
    (∀ (a : Int) (sl : List String) (remote : String → List Src.Page)
        (r : String) (rest : List String),
      Src.fetchStatsG remote (some a) none sl (r :: rest) = .error .attrError) ∧
    Src.fetchStatsG (fun _ => []) none (some 20) ["release"] ["octo/repo"]
      = .error .attrError := by
  refine ⟨?_, rfl, fun e sl remote r rest => rfl, fun a sl remote r rest => rfl, rfl⟩
  intro s e d
  cases s <;> cases e <;>
    simp [Stats.buildCreatedQual, Stats.qualSatisfied, and_comm]

/-- Witness for C8: the inclusive window `[3, 5]` accepts `4`, via the
qualifier-semantics direction of the theorem. -/
theorem created_window_inclusive_witness :
    Stats.qualSatisfied (Stats.buildCreatedQual (some 3) (some 5)) 4 = true := by
  apply (created_window_inclusive_and_absent_bound_crash.1 (some 3) (some 5) 4).mpr
  refine ⟨?_, ?_⟩ <;> (intro x hx; injection hx with h; omega)

/-! ## Claim about skip-label zeroing (C6) -/

/-- **C6.** A `pr_created` record whose originating pull-request item carries
any label in the configured skip-label set — membership tested by
case-insensitive exact match, since `get_skip_labels` lower-cases the
configured labels and the collector lower-cases the item's labels — has
`additions = 0` and `deletions = 0` regardless of the item's true counts,
while an item carrying no skip-label keeps its true counts unchanged. -/
theorem skip_label_zeroing (cfg : List String) (repo : String) (n : Src.PrNode) :
    ∃ pe rest,
      Src.normalizeNode repo (getSkipLabels (some cfg)) (some n) = pe :: rest ∧
      pe.type = .pr_created ∧
      ((∃ l ∈ n.labels, ∃ s ∈ cfg, strLower l = strLower s) →
        pe.additions = 0 ∧ pe.deletions = 0) ∧
      ((¬ ∃ l ∈ n.labels, ∃ s ∈ cfg, strLower l = strLower s) →
        pe.additions = n.additions ∧ pe.deletions = n.deletions) := by
  have hiff : ((getSkipLabels (some cfg)).any
      (fun s => (n.labels.map GithubStats.strLower).contains s) = true) ↔
      (∃ l ∈ n.labels, ∃ s ∈ cfg, strLower l = strLower s) := by
    simp only [getSkipLabels, Option.getD_some, List.any_eq_true, List.mem_map,
      List.contains_iff_exists_mem_beq, beq_iff_eq]
    constructor
    · rintro ⟨s', ⟨s, hs, rfl⟩, l', ⟨l, hl, rfl⟩, hEq⟩
      exact ⟨l, hl, s, hs, hEq.symm⟩
    · rintro ⟨l, hl, s, hs, hEq⟩
      exact ⟨strLower s, ⟨s, hs, rfl⟩, strLower l, ⟨l, hl, rfl⟩, hEq.symm⟩
  refine ⟨_, _, rfl, rfl, ?_, ?_⟩
  · intro h
    have hb := hiff.mpr h
    simp only [Src.normalizeNode, hb]
    simp
  · intro h
    have hb : ((getSkipLabels (some cfg)).any
        (fun s => (n.labels.map GithubStats.strLower).contains s)) = false := by
      rcases hx : (getSkipLabels (some cfg)).any
          (fun s => (n.labels.map GithubStats.strLower).contains s) with _ | _
      · rfl
      · exact absurd (hiff.mp hx) h
    simp only [Src.normalizeNode, hb]
    simp

/-- A concrete pull-request node carrying the label `RELEASE`. -/
def nodeLabelled : Src.PrNode :=
  { number := 7, author := some "alice", createdAt := 0, mergedAt := none,
    additions := 40, deletions := 9, labels := ["RELEASE"],
    reviews := [], comments := [], reviewThreads := [] }

/-- Witness for C6: with configured skip label `Release`, the node labelled
`RELEASE` (true counts 40/9) yields a `pr_created` record with zeroed counts. -/
theorem skip_label_zeroing_witness :
    (Src.normalizeNode "o/r" (getSkipLabels (some ["Release"])) (some nodeLabelled)).head?.map
        (fun pe => (pe.additions, pe.deletions)) = some (0, 0) := by
  obtain ⟨pe, rest, hEq, -, hz, -⟩ := skip_label_zeroing ["Release"] "o/r" nodeLabelled
  have hone := hz ⟨"RELEASE", by simp [nodeLabelled], "Release", by simp, by decide⟩
  rw [hEq]
  simp [hone.1, hone.2]

/-! ## Claims about the REST collector and the registry (C1, C2) -/

lemma issueEvents_repo (r : String) (sl : List String) (i : Stats.Issue) :
    ∀ ev ∈ Stats.issueEvents r sl i, ev.repo = r := by
  intro ev hev
  simp only [Stats.issueEvents] at hev
  split at hev
  · simp at hev
  · rcases List.mem_cons.mp hev with rfl | hev
    · rfl
    · simp only [List.mem_append, List.mem_filterMap, List.mem_map] at hev
      rcases hev with (⟨rv, -, hsome⟩ | ⟨c, -, rfl⟩) | ⟨c, -, rfl⟩
      · split at hsome
        · obtain rfl := Option.some_inj.mp hsome
          rfl
        · simp at hsome
      · rfl
      · rfl

lemma stepRepo_events_repo (remote : String → Stats.RestResult) (sl : List String)
    (st : Stats.SkipState) (r : String) :
    ∀ ev ∈ (Stats.stepRepo remote sl st r).1, ev.repo = r := by
  intro ev hev
  unfold Stats.stepRepo at hev
  split at hev
  · simp at hev
  · cases hrem : remote r with
    | ok issues =>
      rw [hrem] at hev
      simp only [List.mem_flatten, List.mem_map] at hev
      obtain ⟨evl, ⟨i, -, rfl⟩, hev⟩ := hev
      exact issueEvents_repo r sl i ev hev
    | ghErr s =>
      rw [hrem] at hev
      dsimp only at hev
      split at hev <;> simp at hev
    | exn =>
      rw [hrem] at hev
      simp at hev

lemma stepRepo_trace_repo (remote : String → Stats.RestResult) (sl : List String)
    (st : Stats.SkipState) (r : String) :
    ∀ x ∈ (Stats.stepRepo remote sl st r).2.1, x = r := by
  intro x hx
  unfold Stats.stepRepo at hx
  split at hx
  · simp at hx
  · cases hrem : remote r with
    | ok issues =>
      rw [hrem] at hx
      simpa using hx
    | ghErr s =>
      rw [hrem] at hx
      dsimp only at hx
      split at hx <;> simpa using hx
    | exn =>
      rw [hrem] at hx
      simpa using hx

lemma add_skipped_mono (st : Stats.SkipState) (r x : String)
    (h : st.isSkipped x = true) : (st.add r).isSkipped x = true := by
  have hm : x ∈ st.skipped := by
    simpa [Stats.SkipState.isSkipped] using h
  unfold Stats.SkipState.add
  split
  · exact h
  · simp [Stats.SkipState.isSkipped, hm]

lemma stepRepo_skipped_mono (remote : String → Stats.RestResult) (sl : List String)
    (st : Stats.SkipState) (r x : String) (h : st.isSkipped x = true) :
    ((Stats.stepRepo remote sl st r).2.2).isSkipped x = true := by
  unfold Stats.stepRepo
  split
  · exact h
  · cases remote r with
    | ok issues => exact h
    | ghErr s =>
      dsimp only
      split
      · exact add_skipped_mono st r x h
      · exact h
    | exn => exact h

lemma fetchStatsRest_skipped_mono (remote : String → Stats.RestResult)
    (sl : List String) :
    ∀ (l : List String) (st : Stats.SkipState) (x : String),
      st.isSkipped x = true →
      ((Stats.fetchStatsRest remote sl l st).2.2).isSkipped x = true
  | [], _, _, h => h
  | r :: rest, st, x, h => by
    simp only [Stats.fetchStatsRest]
    exact fetchStatsRest_skipped_mono remote sl rest _ x
      (stepRepo_skipped_mono remote sl st r x h)

lemma fetchStatsRest_avoids_skipped (remote : String → Stats.RestResult)
    (sl : List String) (r : String) :
    ∀ (l : List String) (st : Stats.SkipState),
      st.isSkipped r = true →
      (∀ ev ∈ (Stats.fetchStatsRest remote sl l st).1, ev.repo ≠ r) ∧
        r ∉ (Stats.fetchStatsRest remote sl l st).2.1
  | [], st, _ => by simp [Stats.fetchStatsRest]
  | r' :: rest, st, h => by
    have IH := fetchStatsRest_avoids_skipped remote sl r rest
      ((Stats.stepRepo remote sl st r').2.2)
      (stepRepo_skipped_mono remote sl st r' r h)
    simp only [Stats.fetchStatsRest]
    have hne : ∀ ev ∈ (Stats.stepRepo remote sl st r').1, ev.repo ≠ r := by
      intro ev hev he
      have hrepo := stepRepo_events_repo remote sl st r' ev hev
      rw [hrepo] at he
      subst he
      have : ¬ st.isSkipped r' = true := by
        intro hskip
        unfold Stats.stepRepo at hev
        rw [if_pos hskip] at hev
        simp at hev
      exact this h
    constructor
    · intro ev hev
      rcases List.mem_append.mp hev with hev | hev
      · exact hne ev hev
      · exact IH.1 ev hev
    · intro hmem
      rcases List.mem_append.mp hmem with hmem | hmem
      · have hx := stepRepo_trace_repo remote sl st r' r hmem
        subst hx
        have : ¬ st.isSkipped r = true := by
          intro hskip
          unfold Stats.stepRepo at hmem
          rw [if_pos hskip] at hmem
          simp at hmem
        exact this h
      · exact IH.2 hmem

lemma fetchStatsRest_filter_initial (remote : String → Stats.RestResult)
    (sl : List String) (st0 : Stats.SkipState) :
    ∀ (l : List String) (st : Stats.SkipState),
      (∀ x, st0.isSkipped x = true → st.isSkipped x = true) →
      Stats.fetchStatsRest remote sl (l.filter (fun x => !(st0.isSkipped x))) st =
        Stats.fetchStatsRest remote sl l st
  | [], _, _ => rfl
  | r :: rest, st, h => by
    by_cases hr : st0.isSkipped r = true
    · have hst : st.isSkipped r = true := h r hr
      have hfilter : (r :: rest).filter (fun x => !(st0.isSkipped x)) =
          rest.filter (fun x => !(st0.isSkipped x)) := by
        simp [List.filter_cons, hr]
      rw [hfilter, fetchStatsRest_filter_initial remote sl st0 rest st h]
      simp [Stats.fetchStatsRest, Stats.stepRepo, hst]
    · have hfilter : (r :: rest).filter (fun x => !(st0.isSkipped x)) =
          r :: rest.filter (fun x => !(st0.isSkipped x)) := by
        simp [List.filter_cons, hr]
      rw [hfilter]
      simp only [Stats.fetchStatsRest]
      rw [fetchStatsRest_filter_initial remote sl st0 rest _
        (fun x hx => stepRepo_skipped_mono remote sl st r x (h x hx))]

/-- **C1.** A repository present in the SkipRegistry at the start of a
`fetch_stats` call contributes zero events to the output, is never contacted,
and the whole call behaves exactly as if the initially-registered repositories
had been removed from the input list — all other repositories are processed
as usual. -/
theorem preskipped_repo_contributes_nothing (remote : String → Stats.RestResult)
    (sl : List String) (repos : List String) (st : Stats.SkipState) (r : String)
    (h : st.isSkipped r = true) :
    (∀ ev ∈ (Stats.fetchStatsRest remote sl repos st).1, ev.repo ≠ r) ∧
    r ∉ (Stats.fetchStatsRest remote sl repos st).2.1 ∧
    Stats.fetchStatsRest remote sl repos st =
      Stats.fetchStatsRest remote sl
        (repos.filter (fun x => !(st.isSkipped x))) st :=
  ⟨(fetchStatsRest_avoids_skipped remote sl r repos st h).1,
   (fetchStatsRest_avoids_skipped remote sl r repos st h).2,
   (fetchStatsRest_filter_initial remote sl st repos st (fun _ hx => hx)).symm⟩

/-- A remote source answering every repository with an empty search. -/
def remoteEmptyOk : String → Stats.RestResult := fun _ => .ok []

/-- A registry that already holds `o/a`. -/
def registryWithA : Stats.SkipState := ⟨["o/a"], ["o/a"]⟩

/-- Witness for C1: with `o/a` pre-registered, fetching `[o/a, o/b]` equals
fetching the filtered list. -/
theorem preskipped_repo_contributes_nothing_witness :
    Stats.fetchStatsRest remoteEmptyOk [] ["o/a", "o/b"] registryWithA =
      Stats.fetchStatsRest remoteEmptyOk []
        (["o/a", "o/b"].filter (fun x => !(registryWithA.isSkipped x)))
        registryWithA :=
  (preskipped_repo_contributes_nothing remoteEmptyOk [] ["o/a", "o/b"]
    registryWithA "o/a" (by decide)).2.2

lemma fetchStatsRest_append (remote : String → Stats.RestResult) (sl : List String) :
    ∀ (l1 l2 : List String) (st : Stats.SkipState),
      Stats.fetchStatsRest remote sl (l1 ++ l2) st =
        ((Stats.fetchStatsRest remote sl l1 st).1 ++
           (Stats.fetchStatsRest remote sl l2
             ((Stats.fetchStatsRest remote sl l1 st).2.2)).1,
         (Stats.fetchStatsRest remote sl l1 st).2.1 ++
           (Stats.fetchStatsRest remote sl l2
             ((Stats.fetchStatsRest remote sl l1 st).2.2)).2.1,
         (Stats.fetchStatsRest remote sl l2
           ((Stats.fetchStatsRest remote sl l1 st).2.2)).2.2)
  | [], l2, st => by simp [Stats.fetchStatsRest]
  | r :: rest, l2, st => by
    simp only [List.cons_append, List.append_eq, Stats.fetchStatsRest]
    rw [fetchStatsRest_append remote sl rest l2 _]
    simp [List.append_assoc]

/-- **C2.** When fetching a repository not yet registered fails with 403 or
404, `fetch_stats` emits nothing for it, adds it to the SkipRegistry with the
registry flushed to persisted state immediately, keeps every event already
collected for earlier repositories, and moves on to the rest of the list with
the repository registered. -/
theorem permanent_denial_registers_and_continues
    (remote : String → Stats.RestResult) (sl : List String)
    (pre post : List String) (st0 : Stats.SkipState) (r : String)
    (h1 : ((Stats.fetchStatsRest remote sl pre st0).2.2).isSkipped r = false)
    (h2 : remote r = .ghErr 403 ∨ remote r = .ghErr 404) :
    Stats.stepRepo remote sl ((Stats.fetchStatsRest remote sl pre st0).2.2) r
        = ([], [r], ((Stats.fetchStatsRest remote sl pre st0).2.2).add r) ∧
    (((Stats.fetchStatsRest remote sl pre st0).2.2).add r).persisted.contains r
        = true ∧
    (Stats.fetchStatsRest remote sl (pre ++ r :: post) st0).1 =
      (Stats.fetchStatsRest remote sl pre st0).1 ++
        (Stats.fetchStatsRest remote sl post
          (((Stats.fetchStatsRest remote sl pre st0).2.2).add r)).1 ∧
    ((Stats.fetchStatsRest remote sl (pre ++ r :: post) st0).2.2).isSkipped r
        = true := by
  set st1 := (Stats.fetchStatsRest remote sl pre st0).2.2 with hst1
  have hnc : ¬ (st1.skipped.contains r = true) := by
    intro hc
    rw [show st1.skipped.contains r = st1.isSkipped r from rfl, h1] at hc
    exact Bool.false_ne_true hc
  have hstep : Stats.stepRepo remote sl st1 r = ([], [r], st1.add r) := by
    unfold Stats.stepRepo
    rw [if_neg (by simpa [Stats.SkipState.isSkipped] using hnc)]
    rcases h2 with h2 | h2 <;> rw [h2] <;> simp
  have haddmem : (st1.add r).isSkipped r = true := by
    unfold Stats.SkipState.add
    rw [if_neg hnc]
    simp [Stats.SkipState.isSkipped]
  have hpers : (st1.add r).persisted.contains r = true := by
    unfold Stats.SkipState.add
    rw [if_neg hnc]
    simp
  have happ := fetchStatsRest_append remote sl pre (r :: post) st0
  have hcons : Stats.fetchStatsRest remote sl (r :: post) st1 =
      (([] : List Event) ++ (Stats.fetchStatsRest remote sl post (st1.add r)).1,
       [r] ++ (Stats.fetchStatsRest remote sl post (st1.add r)).2.1,
       (Stats.fetchStatsRest remote sl post (st1.add r)).2.2) := by
    simp [Stats.fetchStatsRest, hstep]
  refine ⟨hstep, hpers, ?_, ?_⟩
  · rw [happ, ← hst1, hcons]
    simp
  · rw [happ, ← hst1, hcons]
    exact fetchStatsRest_skipped_mono remote sl post (st1.add r) r haddmem

/-- A remote source that answers every repository with a 404. -/
def remoteNotFound : String → Stats.RestResult := fun _ => .ghErr 404

/-- Witness for C2: a 404 on `o/x` with an empty registry persists `o/x`
immediately. -/
theorem permanent_denial_registers_and_continues_witness :
    (((Stats.fetchStatsRest remoteNotFound [] [] ⟨[], []⟩).2.2).add "o/x").persisted.contains "o/x"
      = true :=
  (permanent_denial_registers_and_continues remoteNotFound [] [] []
    ⟨[], []⟩ "o/x" (by decide) (Or.inr rfl)).2.1

/-! ## Claim about rate-limit exhaustion (C3) -/

lemma fetchStatsG_error_extend (remote : String → List Src.Page) (sa sb : Int)
    (sl : List String) (r : String) (post : List String)
    (h2 : Src.pagesEvents r sl (remote r) = .error ()) :
    ∀ (pre : List String) (evs : List Event),
      Src.fetchStatsG remote (some sa) (some sb) sl pre = .ok evs →
      Src.fetchStatsG remote (some sa) (some sb) sl (pre ++ r :: post)
        = .error .rateLimit := by
  intro pre
  induction pre with
  | nil =>
    intro evs h1
    simp [Src.fetchStatsG, Src.buildSearchQueryG, h2]
  | cons p ps ih =>
    intro evs h1
    simp only [List.cons_append, List.append_eq, Src.fetchStatsG,
      Src.buildSearchQueryG] at h1 ⊢
    cases hp : Src.pagesEvents p sl (remote p) with
    | error er =>
      rw [hp] at h1
    | ok evs1 =>
      rw [hp] at h1
      dsimp only at h1
      cases hrest : Src.fetchStatsG remote (some sa) (some sb) sl ps with
      | error er =>
        rw [hrest] at h1
        simp at h1
      | ok evs2 =>
        dsimp only
        rw [ih evs2 hrest]

/-- **C3.** Rate-limit exhaustion — detected through the
`API rate limit exceeded` signature in the first message of the source's
GraphQL error payload — aborts the whole collection run by propagating
`RateLimitExceededError` to the caller, and since `src/fetcher.py` never
references a skip registry, the registry seen alongside the run is unchanged:
the repository being fetched is not marked as skipped. -/
theorem rate_limit_aborts_run_without_skipping
    (remote : String → List Src.Page) (sa sb : Int) (sl : List String)
    (pre post : List String) (r : String) (evs : List Event)
    (registry : List String)
    (h1 : Src.fetchStatsG remote (some sa) (some sb) sl pre = .ok evs)
    (h2 : Src.pagesEvents r sl (remote r) = .error ()) :
    (∀ (msg : String) (pages : List Src.Page),
        Src.containsSubstr msg Src.rateLimitSig = true →
        Src.pagesEvents r sl (Src.Page.errors msg :: pages) = .error ()) ∧
    Src.collectG registry remote (some sa) (some sb) sl (pre ++ r :: post)
      = (.error .rateLimit, registry) := by
  constructor
  · intro msg pages hmsg
    simp [Src.pagesEvents, hmsg]
  · unfold Src.collectG
    rw [fetchStatsG_error_extend remote sa sb sl r post h2 pre evs h1]

/-- A remote source whose every page reports rate-limit exhaustion. -/
def remoteRateLimited : String → List Src.Page :=
  fun _ => [.errors "API rate limit exceeded for installation ID 123."]

/-- Witness for C3: a rate-limited repository makes the whole run return the
error while the registry stays as it was. -/
theorem rate_limit_aborts_run_without_skipping_witness :
    Src.collectG ["o/kept"] remoteRateLimited (some 0) (some 1) ["release"]
      ["o/r"] = (.error .rateLimit, ["o/kept"]) :=
  (rate_limit_aborts_run_without_skipping remoteRateLimited 0 1 ["release"]
    [] [] "o/r" [] ["o/kept"] rfl rfl).2

/-! ## Claim about exact counting (C4) -/

lemma mem_normalizeNode_count (repo : String) (sl : List String)
    (o : Option Src.PrNode) : ∀ ev ∈ Src.normalizeNode repo sl o, ev.count = 1 := by
  intro ev hev
  cases o with
  | none => simp [Src.normalizeNode] at hev
  | some n =>
    simp only [Src.normalizeNode] at hev
    rcases List.mem_cons.mp hev with rfl | hev
    · rfl
    · simp only [List.mem_append, List.mem_filterMap, List.mem_map,
        List.mem_flatten] at hev
      rcases hev with ((⟨rv, -, hsome⟩ | hm) | ⟨c, -, hc⟩) | ⟨evl, ⟨t, -, rfl⟩, hc⟩
      · cases hra : rv.author with
        | none => rw [hra] at hsome; simp at hsome
        | some a =>
          rw [hra] at hsome
          dsimp only at hsome
          split at hsome
          · obtain rfl := Option.some_inj.mp hsome; rfl
          · split at hsome
            · obtain rfl := Option.some_inj.mp hsome; rfl
            · split at hsome
              · obtain rfl := Option.some_inj.mp hsome; rfl
              · simp at hsome
      · cases hma : n.mergedAt with
        | none => rw [hma] at hm; simp at hm
        | some m =>
          rw [hma] at hm
          rcases List.mem_singleton.mp hm with rfl
          rfl
      · cases hca : c.author with
        | none => rw [hca] at hc; simp at hc
        | some a =>
          rw [hca] at hc
          obtain rfl := Option.some_inj.mp hc
          rfl
      · rcases List.mem_filterMap.mp hc with ⟨c, -, hc⟩
        cases hca : c.author with
        | none => rw [hca] at hc; simp at hc
        | some a =>
          rw [hca] at hc
          obtain rfl := Option.some_inj.mp hc
          rfl

lemma pagesEvents_count (repo : String) (sl : List String) :
    ∀ (pages : List Src.Page) (evs : List Event),
      Src.pagesEvents repo sl pages = .ok evs → ∀ ev ∈ evs, ev.count = 1
  | [], evs, h => by
    obtain rfl := (Except.ok.injEq _ _ ).mp h.symm
    simp
  | .errors msg :: rest, evs, h => by
    simp only [Src.pagesEvents] at h
    split at h
    · simp at h
    · obtain rfl := (Except.ok.injEq _ _ ).mp h.symm
      simp
  | .httpError :: rest, evs, h => by
    simp only [Src.pagesEvents] at h
    obtain rfl := (Except.ok.injEq _ _ ).mp h.symm
    simp
  | .ok nodes hasNext :: rest, evs, h => by
    simp only [Src.pagesEvents] at h
    intro ev hev
    have hflat : ∀ ev ∈ (nodes.map (Src.normalizeNode repo sl)).flatten,
        ev.count = 1 := by
      intro ev hev
      rcases List.mem_flatten.mp hev with ⟨evl, hevl, hev⟩
      rcases List.mem_map.mp hevl with ⟨o, -, rfl⟩
      exact mem_normalizeNode_count repo sl o ev hev
    split at h
    · cases hrest : Src.pagesEvents repo sl rest with
      | error er => rw [hrest] at h; simp at h
      | ok more =>
        rw [hrest] at h
        obtain rfl := (Except.ok.injEq _ _ ).mp h.symm
        rcases List.mem_append.mp hev with hev | hev
        · exact hflat ev hev
        · exact pagesEvents_count repo sl rest more hrest ev hev
    · obtain rfl := (Except.ok.injEq _ _ ).mp h.symm
      exact hflat ev hev

lemma fetchStatsG_count (remote : String → List Src.Page) (s e : Option Int)
    (sl : List String) :
    ∀ (repos : List String) (evs : List Event),
      Src.fetchStatsG remote s e sl repos = .ok evs → ∀ ev ∈ evs, ev.count = 1
  | [], evs, h => by
    simp only [Src.fetchStatsG] at h
    obtain rfl := (Except.ok.injEq _ _ ).mp h.symm
    simp
  | r :: rest, evs, h => by
    simp only [Src.fetchStatsG] at h
    cases hq : Src.buildSearchQueryG s e with
    | error er => rw [hq] at h; simp at h
    | ok q =>
      rw [hq] at h
      cases hp : Src.pagesEvents r sl (remote r) with
      | error er => rw [hp] at h; simp at h
      | ok evs1 =>
        rw [hp] at h
        cases hrest : Src.fetchStatsG remote s e sl rest with
        | error er => rw [hrest] at h; simp at h
        | ok evs2 =>
          rw [hrest] at h
          obtain rfl := (Except.ok.injEq _ _ ).mp h.symm
          intro ev hev
          rcases List.mem_append.mp hev with hev | hev
          · exact pagesEvents_count r sl (remote r) evs1 hp ev hev
          · exact fetchStatsG_count remote s e sl rest evs2 hrest ev hev

lemma sum_counts_of_ones :
    ∀ (l : List Event), (∀ ev ∈ l, ev.count = 1) →
      (l.map Event.count).sum = l.length
  | [], _ => rfl
  | ev :: rest, h => by
    simp only [List.map_cons, List.sum_cons, List.length_cons,
      h ev (List.mem_cons_self ev rest),
      sum_counts_of_ones rest (fun x hx => h x (List.mem_cons_of_mem ev hx))]
    omega

lemma countCell_eq_length (df : List Event) (u : String) (t : EventType)
    (h : ∀ ev ∈ df, ev.count = 1) :
    Src.countCell df u t
      = (df.filter (fun ev => ev.user == u && ev.type == t)).length := by
  unfold Src.countCell
  exact sum_counts_of_ones _ (fun ev hev => h ev (List.mem_of_mem_filter hev))

/-- The repository partition of the user-filtered stream that
`generate_report` aggregates (lines 26–43 of `src/reporter.py`). -/
def Src.repoPartition (usersFilter skipUsers : List String) (r : String)
    (evs : List Event) : List Event :=
  (Src.applyUserFilters usersFilter skipUsers evs).filter (fun ev => ev.repo == r)

lemma applyUserFilters_subset (uf su : List String) (df : List Event) :
    ∀ ev ∈ Src.applyUserFilters uf su df, ev ∈ df := by
  intro ev hev
  unfold Src.applyUserFilters at hev
  by_cases h1 : uf.isEmpty <;> by_cases h2 : su.isEmpty <;>
    simp [h1, h2, List.mem_filter] at hev <;> tauto

lemma repoPartition_count (uf su : List String) (r : String) (evs : List Event)
    (h : ∀ ev ∈ evs, ev.count = 1) :
    ∀ ev ∈ Src.repoPartition uf su r evs, ev.count = 1 := by
  intro ev hev
  exact h ev (applyUserFilters_subset uf su evs ev (List.mem_of_mem_filter hev))

/-- **C4.** For a stream produced by the collector, every record carries
`count = 1`, and each integer metric cell of the aggregated output — the
summed `count` over a `(repository, user, event_type)` key — equals the number
of records in the filtered input carrying that key: exact counting with no
double counting and no other inference of counts. -/
theorem aggregated_counts_match_filtered_input
    (remote : String → List Src.Page) (s e : Option Int) (sl : List String)
    (repos : List String) (evs : List Event)
    (uf su : List String) (r u : String)
    (h : Src.fetchStatsG remote s e sl repos = .ok evs) :
    (∀ ev ∈ evs, ev.count = 1) ∧
    (∀ t : EventType,
      Src.countCell (Src.repoPartition uf su r evs) u t
        = ((Src.repoPartition uf su r evs).filter
            (fun ev => ev.user == u && ev.type == t)).length) ∧
    (Src.buildRow (Src.repoPartition uf su r evs) u).prCreated
        = ((Src.repoPartition uf su r evs).filter
            (fun ev => ev.user == u && ev.type == .pr_created)).length ∧
    (Src.buildRow (Src.repoPartition uf su r evs) u).reviewsApproved
        = ((Src.repoPartition uf su r evs).filter
            (fun ev => ev.user == u && ev.type == .review_approved)).length ∧
    (Src.buildRow (Src.repoPartition uf su r evs) u).reviewsChangesRequested
        = ((Src.repoPartition uf su r evs).filter
            (fun ev => ev.user == u && ev.type == .review_changes_requested)).length ∧
    (Src.buildRow (Src.repoPartition uf su r evs) u).reviewsCommented
        = ((Src.repoPartition uf su r evs).filter
            (fun ev => ev.user == u && ev.type == .review_commented)).length ∧
    (Src.buildRow (Src.repoPartition uf su r evs) u).comments
        = ((Src.repoPartition uf su r evs).filter
            (fun ev => ev.user == u && ev.type == .comment)).length := by
  have hones := fetchStatsG_count remote s e sl repos evs h
  have hpart := repoPartition_count uf su r evs hones
  have hcell := fun t => countCell_eq_length (Src.repoPartition uf su r evs) u t hpart
  exact ⟨hones, hcell, hcell _, hcell _, hcell _, hcell _, hcell _⟩

/-- A remote source delivering one single-node page for every repository. -/
def remoteOneNode : String → List Src.Page :=
  fun _ =>
    [.ok [some { number := 1, author := some "alice", createdAt := 0,
                 mergedAt := none, additions := 3, deletions := 1,
                 labels := [], reviews := [], comments := [],
                 reviewThreads := [] }] false]

/-- The single event `remoteOneNode` yields for repository `o/r`. -/
def eventOneNode : Event :=
  { type := .pr_created, user := "alice", repo := "o/r", createdAt := 0,
    count := 1, additions := 3, deletions := 1 }

/-- Witness for C4: the pr_created cell of the concrete one-PR stream equals
the number of matching records. -/
theorem aggregated_counts_match_filtered_input_witness :
    Src.countCell (Src.repoPartition [] [] "o/r" [eventOneNode]) "alice"
        EventType.pr_created
      = ((Src.repoPartition [] [] "o/r" [eventOneNode]).filter
          (fun ev => ev.user == "alice" && ev.type == EventType.pr_created)).length :=
  (aggregated_counts_match_filtered_input remoteOneNode (some 0) (some 1)
    ["release"] ["o/r"] [eventOneNode] [] [] "o/r" "alice" rfl).2.1
    EventType.pr_created

/-!
## Sorting behaviour of the reporter

Only the tie-order-independent properties of `sort_values(col,
ascending=False)` are guaranteed by the program (its default
`kind='quicksort'` is documented unstable on tied keys), so only those are
proved of the model: the output is sorted descending on the key used and is
a permutation of the grouped rows.
-/

lemma insertDesc_perm (key : Src.Row → Rat) (x : Src.Row) :
    ∀ l : List Src.Row, (Src.insertDesc key x l).Perm (x :: l)
  | [] => List.Perm.refl _
  | y :: ys => by
    unfold Src.insertDesc
    split
    · exact List.Perm.refl _
    · exact ((insertDesc_perm key x ys).cons y).trans (List.Perm.swap x y ys)

lemma sortRowsDesc_perm (key : Src.Row → Rat) :
    ∀ rows : List Src.Row, (Src.sortRowsDesc key rows).Perm rows
  | [] => List.Perm.refl _
  | x :: xs =>
    (insertDesc_perm key x (Src.sortRowsDesc key xs)).trans
      ((sortRowsDesc_perm key xs).cons x)

lemma insertDesc_sorted (key : Src.Row → Rat) (x : Src.Row) :
    ∀ l : List Src.Row, l.Pairwise (fun a b => key b ≤ key a) →
      (Src.insertDesc key x l).Pairwise (fun a b => key b ≤ key a)
  | [], _ => by simp [Src.insertDesc]
  | y :: ys, h => by
    rcases List.pairwise_cons.mp h with ⟨hy, hys⟩
    unfold Src.insertDesc
    split
    · rename_i hle
      refine List.pairwise_cons.mpr ⟨?_, h⟩
      intro z hz
      rcases List.mem_cons.mp hz with rfl | hz
      · exact hle
      · exact le_trans (hy z hz) hle
    · rename_i hlt
      refine List.pairwise_cons.mpr ⟨?_, insertDesc_sorted key x ys hys⟩
      intro z hz
      have hz' := (insertDesc_perm key x ys).mem_iff.mp hz
      rcases List.mem_cons.mp hz' with rfl | hz'
      · exact le_of_not_le hlt
      · exact hy z hz'

lemma sortRowsDesc_sorted (key : Src.Row → Rat) :
    ∀ rows : List Src.Row,
      (Src.sortRowsDesc key rows).Pairwise (fun a b => key b ≤ key a)
  | [] => List.Pairwise.nil
  | x :: xs => insertDesc_sorted key x _ (sortRowsDesc_sorted key xs)

/-! ## Claim about avg_pr_size (C7) -/

lemma filter_user_type (repoDf : List Event) (u : String) :
    (repoDf.filter (fun ev => ev.type == EventType.pr_created)).filter
        (fun ev => ev.user == u)
      = repoDf.filter (fun ev => ev.user == u && ev.type == EventType.pr_created) := by
  induction repoDf with
  | nil => rfl
  | cons ev rest ih =>
    by_cases ht : (ev.type == EventType.pr_created) = true <;>
      by_cases hu : (ev.user == u) = true <;>
        simp [List.filter_cons, ht, hu, ih]

/-- Three PrCreated events for `alice` with line counts 10+5, 2+1, 0+0. -/
def exAlice : List Event :=
  [{ type := .pr_created, user := "alice", repo := "r", createdAt := 0,
     count := 1, additions := 10, deletions := 5 },
   { type := .pr_created, user := "alice", repo := "r", createdAt := 0,
     count := 1, additions := 2, deletions := 1 },
   { type := .pr_created, user := "alice", repo := "r", createdAt := 0,
     count := 1 }]

lemma ratAdd_eq_add (a b : Rat) : ratAdd a b = a + b := by
  unfold ratAdd
  have hda : ((a.den : Rat)) ≠ 0 := Nat.cast_ne_zero.mpr (Rat.den_ne_zero a)
  have hdb : ((b.den : Rat)) ≠ 0 := Nat.cast_ne_zero.mpr (Rat.den_ne_zero b)
  have hna : ((a.num : Rat)) = a * a.den := (div_eq_iff hda).mp (Rat.num_div_den a)
  have hnb : ((b.num : Rat)) = b * b.den := (div_eq_iff hdb).mp (Rat.num_div_den b)
  rw [Rat.divInt_eq_div]
  push_cast
  rw [div_eq_iff (mul_ne_zero hda hdb), hna, hnb]
  ring

lemma ratSub_eq_sub (a b : Rat) : ratSub a b = a - b := by
  unfold ratSub
  have hda : ((a.den : Rat)) ≠ 0 := Nat.cast_ne_zero.mpr (Rat.den_ne_zero a)
  have hdb : ((b.den : Rat)) ≠ 0 := Nat.cast_ne_zero.mpr (Rat.den_ne_zero b)
  have hna : ((a.num : Rat)) = a * a.den := (div_eq_iff hda).mp (Rat.num_div_den a)
  have hnb : ((b.num : Rat)) = b * b.den := (div_eq_iff hdb).mp (Rat.num_div_den b)
  rw [Rat.divInt_eq_div]
  push_cast
  rw [div_eq_iff (mul_ne_zero hda hdb), hna, hnb]
  ring

lemma ratMul_eq_mul (a b : Rat) : ratMul a b = a * b := by
  unfold ratMul
  have hda : ((a.den : Rat)) ≠ 0 := Nat.cast_ne_zero.mpr (Rat.den_ne_zero a)
  have hdb : ((b.den : Rat)) ≠ 0 := Nat.cast_ne_zero.mpr (Rat.den_ne_zero b)
  have hna : ((a.num : Rat)) = a * a.den := (div_eq_iff hda).mp (Rat.num_div_den a)
  have hnb : ((b.num : Rat)) = b * b.den := (div_eq_iff hdb).mp (Rat.num_div_den b)
  rw [Rat.divInt_eq_div]
  push_cast
  rw [div_eq_iff (mul_ne_zero hda hdb), hna, hnb]
  ring

lemma ratDiv_eq_div (a b : Rat) : ratDiv a b = a / b := by
  unfold ratDiv
  by_cases hb : b = 0
  · subst hb
    norm_num
  · have hda : ((a.den : Rat)) ≠ 0 := Nat.cast_ne_zero.mpr (Rat.den_ne_zero a)
    have hdb : ((b.den : Rat)) ≠ 0 := Nat.cast_ne_zero.mpr (Rat.den_ne_zero b)
    have hbn : ((b.num : Rat)) ≠ 0 := Int.cast_ne_zero.mpr (Rat.num_ne_zero.mpr hb)
    have hna : ((a.num : Rat)) = a * a.den := (div_eq_iff hda).mp (Rat.num_div_den a)
    have hnb : ((b.num : Rat)) = b * b.den := (div_eq_iff hdb).mp (Rat.num_div_den b)
    rw [Rat.divInt_eq_div]
    push_cast
    rw [div_eq_div_iff (mul_ne_zero hda hbn) hb, hna, hnb]
    ring

lemma ratSum_eq_sum : ∀ l : List Rat, ratSum l = l.sum
  | [] => rfl
  | x :: xs => by
    show ratAdd x (ratSum xs) = (x :: xs).sum
    rw [ratAdd_eq_add, ratSum_eq_sum xs, List.sum_cons]

/-- **C7.** For a stream whose records all carry `count = 1`, the
`avg_pr_size` cell of a user's aggregated row equals the sum of additions
plus deletions over that user's PrCreated records, divided (`ratDiv` is
division on `ℚ`, first conjunct) by the number of those records and rounded
to the nearest integer (half to even), and equals `0` when the user has no
PrCreated records; concretely, line counts 10+5, 2+1, 0+0 over three PRs
give `Avg PR Size = 6` (rounded from 18/3). -/
theorem avg_pr_size_formula :
    (∀ a b : Rat, ratDiv a b = a / b) ∧
    (∀ (repoDf : List Event) (u : String),
      (∀ ev ∈ repoDf, ev.count = 1) →
      (Src.buildRow repoDf u).avgPrSize =
        (if (repoDf.filter
              (fun ev => ev.user == u && ev.type == EventType.pr_created)).length = 0
         then 0
         else Src.roundHalfEven
           (ratDiv
             ((((repoDf.filter
                  (fun ev => ev.user == u && ev.type == EventType.pr_created)).map
                  Event.additions).sum +
               ((repoDf.filter
                  (fun ev => ev.user == u && ev.type == EventType.pr_created)).map
                  Event.deletions).sum : Nat) : Rat)
             (((repoDf.filter
                (fun ev => ev.user == u && ev.type == EventType.pr_created)).length
               : Nat) : Rat)))) ∧
    (Src.summarize exAlice [] [] [] none).map
        (fun p => (p.1, p.2.map (fun row => (row.user, row.prCreated, row.avgPrSize))))
      = [("r", [("alice", 3, 6)])] := by
  refine ⟨ratDiv_eq_div, ?_, by decide⟩
  intro repoDf u hones
  have hP := filter_user_type repoDf u
  show Src.avgPrSizeFor repoDf u = _
  unfold Src.avgPrSizeFor
  by_cases hempty :
      (repoDf.filter (fun ev => ev.type == EventType.pr_created)).isEmpty = true
  · rw [if_pos hempty]
    have hnil : repoDf.filter (fun ev => ev.type == EventType.pr_created) = [] :=
      List.isEmpty_iff.mp hempty
    have hPnil : repoDf.filter
        (fun ev => ev.user == u && ev.type == EventType.pr_created) = [] := by
      rw [← hP, hnil]
      rfl
    rw [hPnil]
    simp
  · rw [if_neg hempty]
    by_cases hcon :
        ((repoDf.filter (fun ev => ev.type == EventType.pr_created)).map
          Event.user).contains u = true
    · rw [if_pos hcon]
      rcases List.contains_iff_exists_mem_beq.mp hcon with ⟨b, hb, hub⟩
      rcases List.mem_map.mp hb with ⟨ev, hev, rfl⟩
      have hevu : (ev.user == u) = true := by
        rw [beq_iff_eq] at hub ⊢
        exact hub.symm
      have hmemudf : ev ∈ (repoDf.filter
          (fun ev => ev.type == EventType.pr_created)).filter
            (fun ev => ev.user == u) :=
        List.mem_filter.mpr ⟨hev, hevu⟩
      have hne : ¬ (repoDf.filter
          (fun ev => ev.user == u && ev.type == EventType.pr_created)).length = 0 := by
        rw [← hP]
        intro hlen
        rw [List.length_eq_zero] at hlen
        rw [hlen] at hmemudf
        simp at hmemudf
      rw [if_neg hne]
      have hcounts : ((((repoDf.filter
          (fun ev => ev.user == u && ev.type == EventType.pr_created)).map
            Event.count).sum : Nat) : Rat)
          = (((repoDf.filter
              (fun ev => ev.user == u && ev.type == EventType.pr_created)).length
              : Nat) : Rat) := by
        rw [sum_counts_of_ones _ (fun ev hev => hones ev
          (List.mem_of_mem_filter hev))]
      rw [hP]
      dsimp only
      rw [hcounts]
    · rw [if_neg hcon]
      have hPnil : repoDf.filter
          (fun ev => ev.user == u && ev.type == EventType.pr_created) = [] := by
        rw [← hP]
        rw [List.filter_eq_nil_iff]
        intro ev hev hevu
        apply hcon
        apply List.contains_iff_exists_mem_beq.mpr
        refine ⟨ev.user, List.mem_map.mpr ⟨ev, hev, rfl⟩, ?_⟩
        rw [beq_iff_eq] at hevu ⊢
        exact hevu.symm
      rw [hPnil]
      simp

/-- Witness for C7: the formula applied to the concrete three-PR stream. -/
theorem avg_pr_size_formula_witness :
    (Src.buildRow exAlice "alice").avgPrSize = 6 := by
  rw [avg_pr_size_formula.2.1 exAlice "alice" (by decide)]
  decide

end GithubStats
